import Mathlib

/-!
Verification of the DuckConvert path-naming and conversion-dispatch core.

Shallow embedding of `src/conversions.py`, `src/path_manager.py` and
`src/DuckConvert.py`.  Python strings are modelled as Lean `String`s with
ASCII case operations; `pathlib.Path` values are modelled structurally as
(parent, stem, suffix) triples; the filesystem is modelled as the finite
list of existing paths; DuckDB engine calls are modelled as symbolic
read/write operations recorded in a `Strategy` descriptor.
-/

namespace DuckConvert

/-! ### Python string-method model (ASCII) -/

/-- Python `str.lower()` on the ASCII model. -/
def pyLower (s : String) : String := ⟨s.data.map Char.toLower⟩

/-- Python `str.upper()` on the ASCII model. -/
def pyUpper (s : String) : String := ⟨s.data.map Char.toUpper⟩

/-- Python `str.strip()`: drop leading and trailing whitespace. -/
def pyStrip (s : String) : String :=
  ⟨((s.data.dropWhile Char.isWhitespace).reverse.dropWhile
      Char.isWhitespace).reverse⟩

/-! ### Engine-operation model for conversion strategies

Each conversion function in `src/conversions.py` reads the source through
one DuckDB reader, optionally runs a type-inference stage, and writes
through one writer.  A `Strategy` records exactly those attributes. -/

/-- A DuckDB read operation as invoked by a strategy.  `readXlsx` records
whether the query passes `all_varchar = 'true'`. -/
inductive ReadOp where
  | readCsv : ReadOp
  | readJson : ReadOp
  | readParquet : ReadOp
  | readXlsx : Bool → ReadOp
deriving DecidableEq, Repr

/-- A DuckDB write operation as invoked by a strategy.  `writeTxtNegotiated`
is `write_csv` with the delimiter obtained by the TXT delimiter
negotiation. -/
inductive WriteOp where
  | writeCsv : WriteOp
  | writeTsv : WriteOp
  | writeTxtNegotiated : WriteOp
  | writeParquet : WriteOp
  | writeJson : WriteOp
  | writeExcel : WriteOp
deriving DecidableEq, Repr

/-- Descriptor of one conversion function of `src/conversions.py`. -/
structure Strategy where
  name : String
  read : ReadOp
  inferTypes : Bool
  write : WriteOp
deriving DecidableEq, Repr

/-- `csv_to_parquet` (conversions.py): `conn.read_csv(...).to_parquet(...)`. -/
def csv_to_parquet : Strategy := ⟨"csv_to_parquet", .readCsv, false, .writeParquet⟩

/-- `csv_to_json` (conversions.py): `read_csv` then `COPY ... TO out.json`. -/
def csv_to_json : Strategy := ⟨"csv_to_json", .readCsv, false, .writeJson⟩

/-- `csv_to_excel` (conversions.py): `read_csv_auto` query exported via
`ex.export_excel`. -/
def csv_to_excel : Strategy := ⟨"csv_to_excel", .readCsv, false, .writeExcel⟩

/-- `csv_to_tsv` (conversions.py): `export_tsv_generic` with `conn.read_csv`. -/
def csv_to_tsv : Strategy := ⟨"csv_to_tsv", .readCsv, false, .writeTsv⟩

/-- `csv_to_txt` (conversions.py): `export_txt_generic` with `conn.read_csv`. -/
def csv_to_txt : Strategy := ⟨"csv_to_txt", .readCsv, false, .writeTxtNegotiated⟩

/-- `json_to_csv` (conversions.py). -/
def json_to_csv : Strategy := ⟨"json_to_csv", .readJson, false, .writeCsv⟩

/-- `json_to_parquet` (conversions.py). -/
def json_to_parquet : Strategy := ⟨"json_to_parquet", .readJson, false, .writeParquet⟩

/-- `json_to_excel` (conversions.py). -/
def json_to_excel : Strategy := ⟨"json_to_excel", .readJson, false, .writeExcel⟩

/-- `json_to_tsv` (conversions.py). -/
def json_to_tsv : Strategy := ⟨"json_to_tsv", .readJson, false, .writeTsv⟩

/-- `json_to_txt` (conversions.py). -/
def json_to_txt : Strategy := ⟨"json_to_txt", .readJson, false, .writeTxtNegotiated⟩

/-- `parquet_to_csv` (conversions.py). -/
def parquet_to_csv : Strategy := ⟨"parquet_to_csv", .readParquet, false, .writeCsv⟩

/-- `parquet_to_json` (conversions.py). -/
def parquet_to_json : Strategy := ⟨"parquet_to_json", .readParquet, false, .writeJson⟩

/-- `parquet_to_excel` (conversions.py). -/
def parquet_to_excel : Strategy := ⟨"parquet_to_excel", .readParquet, false, .writeExcel⟩

/-- `parquet_to_tsv` (conversions.py). -/
def parquet_to_tsv : Strategy := ⟨"parquet_to_tsv", .readParquet, false, .writeTsv⟩

/-- `parquet_to_txt` (conversions.py). -/
def parquet_to_txt : Strategy := ⟨"parquet_to_txt", .readParquet, false, .writeTxtNegotiated⟩

/-- `excel_to_csv` (conversions.py): query built with `all_varchar = 'true'`,
then `write_csv`. -/
def excel_to_csv : Strategy := ⟨"excel_to_csv", .readXlsx true, false, .writeCsv⟩

/-- `excel_to_parquet` (conversions.py): delegates to
`ex.export_excel_with_inferred_types` (excel_utils, not under src).
Modelled from the spec: the spreadsheet-to-typed-format strategy first
reads all-text (`all_varchar`), then re-infers per-column types before
writing columnar-binary. -/
def excel_to_parquet : Strategy := ⟨"excel_to_parquet", .readXlsx true, true, .writeParquet⟩

/-- `excel_to_json` (conversions.py): delegates to
`ex.export_excel_with_inferred_types` (excel_utils, not under src).
Modelled from the spec: all-text read followed by a type-inference stage,
then a json write. -/
def excel_to_json : Strategy := ⟨"excel_to_json", .readXlsx true, true, .writeJson⟩

/-- `excel_to_tsv` (conversions.py): `all_varchar = 'true'` query, then
`write_csv` with tab separator. -/
def excel_to_tsv : Strategy := ⟨"excel_to_tsv", .readXlsx true, false, .writeTsv⟩

/-- `excel_to_txt` (conversions.py): `all_varchar = 'true'` query, then
`write_csv` with the negotiated delimiter. -/
def excel_to_txt : Strategy := ⟨"excel_to_txt", .readXlsx true, false, .writeTxtNegotiated⟩

/-- `CONVERSION_FUNCTIONS` (conversions.py lines 246-271), in source order. -/
def CONVERSION_FUNCTIONS : List ((String × String) × Strategy) :=
  [(("csv", "parquet"), csv_to_parquet),
   (("csv", "json"), csv_to_json),
   (("csv", "excel"), csv_to_excel),
   (("csv", "tsv"), csv_to_tsv),
   (("csv", "txt"), csv_to_txt),
   (("json", "csv"), json_to_csv),
   (("json", "parquet"), json_to_parquet),
   (("json", "excel"), json_to_excel),
   (("json", "tsv"), json_to_tsv),
   (("json", "txt"), json_to_txt),
   (("parquet", "csv"), parquet_to_csv),
   (("parquet", "json"), parquet_to_json),
   (("parquet", "excel"), parquet_to_excel),
   (("parquet", "tsv"), parquet_to_tsv),
   (("parquet", "txt"), parquet_to_txt),
   (("excel", "csv"), excel_to_csv),
   (("excel", "parquet"), excel_to_parquet),
   (("excel", "json"), excel_to_json),
   (("excel", "tsv"), excel_to_tsv),
   (("excel", "txt"), excel_to_txt)]

/-- Modelled from the spec: the dispatcher `get_conversion_instance`
(imported by DuckConvert.py from conversions, not present under src) looks
a (source, destination) pair up in the conversion table and, for a pair
the table does not define, fails with an unsupported-pair condition. -/
def dispatch (src dst : String) : Except String Strategy :=
  match CONVERSION_FUNCTIONS.lookup (src, dst) with
  | some s => Except.ok s
  | none => Except.error "Unsupported conversion pair"

/-! ### Extension maps (path_manager.py, DuckConvert.py) -/

/-- `BasePathManager.ALLOWED_EXT_MAP` (path_manager.py lines 34-42). -/
def ALLOWED_EXT_MAP : List (String × String) :=
  [(".csv", "csv"), (".txt", "csv"), (".json", "json"), (".parquet", "parquet"),
   (".parq", "parquet"), (".pq", "parquet"), (".xlsx", "excel")]

/-- `BasePathManager.NAMING_EXT_MAP` (path_manager.py lines 45-53). -/
def NAMING_EXT_MAP : List (String × String) :=
  [(".csv", "csv"), (".txt", "txt"), (".json", "json"), (".parquet", "parquet"),
   (".parq", "parquet"), (".pq", "parquet"), (".xlsx", "excel")]

/-- `EXTENSIONS` (DuckConvert.py lines 32-39). -/
def EXTENSIONS : List (String × String) :=
  [("csv", ".csv"), ("tsv", ".tsv"), ("txt", ".txt"), ("parquet", ".parquet"),
   ("json", ".json"), ("excel", ".xlsx")]

/-! ### Generic association-list lemmas -/

/-- A lookup succeeds exactly when the key occurs among the list's keys. -/
theorem lookup_isSome_iff_mem_keys {α β : Type} [BEq α] [LawfulBEq α]
    (l : List (α × β)) (k : α) :
    (l.lookup k).isSome ↔ k ∈ l.map Prod.fst := by
  induction l with
  | nil => simp [List.lookup]
  | cons p l ih =>
    rcases p with ⟨a, b⟩
    by_cases h : k = a
    · subst h
      simp [List.lookup]
    · have hbeq : (k == a) = false := beq_false_of_ne h
      simp [List.lookup, hbeq, ih, h]

/-- A key outside the key list looks up to `none`. -/
theorem lookup_eq_none_of_not_mem_keys {α β : Type} [BEq α] [LawfulBEq α]
    (l : List (α × β)) (k : α) (h : k ∉ l.map Prod.fst) :
    l.lookup k = none := by
  cases hl : l.lookup k with
  | none => rfl
  | some v =>
    exact absurd ((lookup_isSome_iff_mem_keys l k).mp (by simp [hl])) h

/-! ### Directory model and majority-alias inference (path_manager.py) -/

/-- An immediate child of the input directory as consumed by
`DirectoryPathManager._infer_majority_alias`: whether it is a regular file,
and its `pathlib` suffix (last extension, dot included, case preserved). -/
structure DirEntry where
  isFile : Bool
  suffix : String
deriving DecidableEq, Repr

/-- The alias one child contributes (path_manager.py lines 133-137): only
files count, and the lowercased suffix is looked up in `NAMING_EXT_MAP`. -/
def entryAlias (e : DirEntry) : Option String :=
  if e.isFile then NAMING_EXT_MAP.lookup (pyLower e.suffix) else none

/-- The `aliases` list tallied by `_infer_majority_alias`. -/
def dirAliases (entries : List DirEntry) : List String :=
  entries.filterMap entryAlias

/-- Distinct elements in order of first occurrence: the key order of the
Python `Counter` built by inserting the aliases left to right. -/
def firstOccs : List String → List String
  | [] => []
  | x :: xs => x :: firstOccs (xs.filter (fun y => y != x))
termination_by l => l.length
decreasing_by
  simp only [List.length_cons]
  exact Nat.lt_succ_of_le (List.length_filter_le _ _)

/-- The largest multiplicity among the Counter's keys. -/
def countKeyMax (l : List String) : Nat :=
  ((firstOccs l).map (fun k => l.count k)).foldr max 0

/-- `Counter(aliases).most_common(1)[0][0]` (path_manager.py lines
140-141): `most_common` stably sorts the insertion-ordered keys by count,
descending, so its head is the first-inserted key of maximal count. -/
def mostCommon1 (l : List String) : Option String :=
  (firstOccs l).find? (fun k => l.count k == countKeyMax l)

/-- `DirectoryPathManager._infer_majority_alias` (path_manager.py lines
123-142). -/
def infer_majority_alias (isDir : Bool) (entries : List DirEntry) :
    Option String :=
  if !isDir then none
  else if (dirAliases entries).isEmpty then none
  else mostCommon1 (dirAliases entries)

/-! ### Lemmas about `firstOccs`, maxima and `mostCommon1` -/

/-- `firstOccs` keeps exactly the elements of the list. -/
theorem mem_firstOccs (l : List String) (a : String) :
    a ∈ firstOccs l ↔ a ∈ l := by
  match l with
  | [] => simp [firstOccs]
  | x :: xs =>
    have ih := mem_firstOccs (xs.filter (fun y => y != x)) a
    rw [firstOccs]
    simp only [List.mem_cons, ih, List.mem_filter, bne_iff_ne, ne_eq]
    by_cases hax : a = x
    · simp [hax]
    · simp [hax]
termination_by l.length
decreasing_by
  simp only [List.length_cons]
  exact Nat.lt_succ_of_le (List.length_filter_le _ _)

/-- Filtering away copies of an element the predicate rejects does not
change `find?`. -/
theorem find?_filter_ne (p : String → Bool) (x : String) (hx : p x = false) :
    ∀ xs : List String, (xs.filter (fun y => y != x)).find? p = xs.find? p := by
  intro xs
  induction xs with
  | nil => rfl
  | cons y ys ih =>
    by_cases hyx : y = x
    · subst hyx
      simp [List.filter_cons, List.find?_cons, hx, ih]
    · have : (y != x) = true := by simp [hyx]
      rw [List.filter_cons, this]
      simp only [if_true]
      cases hpy : p y with
      | true => simp [List.find?_cons, hpy]
      | false => simp [List.find?_cons, hpy, ih]

/-- A first-satisfying search over the deduplicated key list agrees with
the search over the original list. -/
theorem find?_firstOccs (p : String → Bool) (l : List String) :
    (firstOccs l).find? p = l.find? p := by
  match l with
  | [] => rw [firstOccs]
  | x :: xs =>
    rw [firstOccs]
    cases hpx : p x with
    | true => simp [List.find?_cons, hpx]
    | false =>
      have ih := find?_firstOccs p (xs.filter (fun y => y != x))
      simp only [List.find?_cons, hpx]
      rw [ih, find?_filter_ne p x hpx]
termination_by l.length
decreasing_by
  simp only [List.length_cons]
  exact Nat.lt_succ_of_le (List.length_filter_le _ _)

/-- Each member of a list of naturals is bounded by the folded maximum. -/
theorem le_foldr_max {a : Nat} : ∀ {L : List Nat}, a ∈ L → a ≤ L.foldr max 0 := by
  intro L
  induction L with
  | nil => intro h; cases h
  | cons b M ih =>
    intro h
    rcases List.mem_cons.mp h with h | h
    · subst h; exact le_max_left _ _
    · exact le_trans (ih h) (le_max_right _ _)

/-- The folded maximum of a list of naturals is attained or zero. -/
theorem foldr_max_mem : ∀ (L : List Nat), L.foldr max 0 ∈ L ∨ L.foldr max 0 = 0 := by
  intro L
  induction L with
  | nil => exact Or.inr rfl
  | cons b M ih =>
    rcases le_total b (M.foldr max 0) with h | h
    · rw [List.foldr_cons, max_eq_right h]
      rcases ih with hm | hz
      · exact Or.inl (List.mem_cons_of_mem _ hm)
      · exact Or.inr hz
    · rw [List.foldr_cons, max_eq_left h]
      exact Or.inl (List.mem_cons_self _ _)

/-- Folded maxima are monotone under list inclusion. -/
theorem foldr_max_le_foldr_max {L1 L2 : List Nat} (h : ∀ a ∈ L1, a ∈ L2) :
    L1.foldr max 0 ≤ L2.foldr max 0 := by
  rcases foldr_max_mem L1 with hm | hz
  · exact le_foldr_max (h _ hm)
  · rw [hz]; exact Nat.zero_le _

/-- The maximal key multiplicity equals the maximal multiplicity taken
over all positions of the list. -/
theorem countKeyMax_eq (l : List String) :
    countKeyMax l = (l.map (fun k => l.count k)).foldr max 0 := by
  refine le_antisymm (foldr_max_le_foldr_max ?_) (foldr_max_le_foldr_max ?_)
  · intro a ha
    rcases List.mem_map.mp ha with ⟨k, hk, hka⟩
    exact List.mem_map.mpr ⟨k, (mem_firstOccs l k).mp hk, hka⟩
  · intro a ha
    rcases List.mem_map.mp ha with ⟨k, hk, hka⟩
    exact List.mem_map.mpr ⟨k, (mem_firstOccs l k).mpr hk, hka⟩

/-- `mostCommon1` is the first element of the list itself whose
multiplicity is maximal. -/
theorem mostCommon1_eq_find (l : List String) :
    mostCommon1 l
      = l.find? (fun k => l.count k == (l.map (fun k => l.count k)).foldr max 0) := by
  unfold mostCommon1
  rw [← countKeyMax_eq, find?_firstOccs]

/-- On a nonempty list `mostCommon1` returns a value. -/
theorem mostCommon1_isSome (l : List String) (h : l ≠ []) :
    (mostCommon1 l).isSome := by
  rw [mostCommon1_eq_find, List.find?_isSome]
  rcases List.exists_mem_of_ne_nil l h with ⟨a, ha⟩
  rcases foldr_max_mem (l.map (fun k => l.count k)) with hm | hz
  · rcases List.mem_map.mp hm with ⟨k, hk, hka⟩
    exact ⟨k, hk, by simp [hka]⟩
  · exfalso
    have h1 : 0 < l.count a := List.count_pos_iff.mpr ha
    have h2 : l.count a ≤ (l.map (fun k => l.count k)).foldr max 0 :=
      le_foldr_max (List.mem_map.mpr ⟨a, ha, rfl⟩)
    omega

/-- Specification of `mostCommon1`: the result occurs in the list, has
maximal multiplicity, and among equal multiplicities its first occurrence
comes no later. -/
theorem mostCommon1_spec (l : List String) (m : String)
    (h : mostCommon1 l = some m) :
    m ∈ l
    ∧ (∀ x ∈ l, l.count x ≤ l.count m)
    ∧ (∀ k ∈ l, l.count k = l.count m → l.indexOf m ≤ l.indexOf k) := by
  rw [mostCommon1_eq_find] at h
  have hmem : m ∈ l := List.mem_of_find?_eq_some h
  have hcm : l.count m = (l.map (fun k => l.count k)).foldr max 0 := by
    have := List.find?_some h
    simpa using this
  refine ⟨hmem, ?_, ?_⟩
  · intro x hx
    rw [hcm]
    exact le_foldr_max (List.mem_map.mpr ⟨x, hx, rfl⟩)
  · intro k hk hck
    rcases List.find?_eq_some.mp h with ⟨hp, as, bs, hsplit, has⟩
    have hknotas : k ∉ as := by
      intro hka
      have h1 := has k hka
      simp only [Bool.not_eq_true', beq_eq_false_iff_ne, ne_eq] at h1
      exact h1 (by rw [hck, hcm])
    have hmnotas : m ∉ as := by
      intro hma
      have h1 := has m hma
      simp only [Bool.not_eq_true', beq_eq_false_iff_ne, ne_eq] at h1
      exact h1 hcm
    rw [hsplit, List.indexOf_append_of_not_mem hmnotas,
      List.indexOf_append_of_not_mem hknotas, List.indexOf_cons_self]
    exact Nat.add_le_add_left (Nat.zero_le _) _

/-- Only files contribute aliases: filtering to files changes nothing. -/
theorem dirAliases_filter_isFile (entries : List DirEntry) :
    dirAliases entries = dirAliases (entries.filter (fun e => e.isFile)) := by
  rw [dirAliases, dirAliases, List.filterMap_filter]
  congr 1
  funext a
  by_cases hf : a.isFile
  · simp [hf]
  · simp [hf, entryAlias]

/-- Concrete tie: two csv files seen before two json files elect csv. -/
theorem infer_example_tie :
    infer_majority_alias true
      [⟨true, ".csv"⟩, ⟨true, ".csv"⟩, ⟨true, ".json"⟩, ⟨true, ".json"⟩]
      = some "csv" := by
  have h1 : dirAliases
      [⟨true, ".csv"⟩, ⟨true, ".csv"⟩, ⟨true, ".json"⟩, ⟨true, ".json"⟩]
      = ["csv", "csv", "json", "json"] := by decide
  have h2 : infer_majority_alias true
      [⟨true, ".csv"⟩, ⟨true, ".csv"⟩, ⟨true, ".json"⟩, ⟨true, ".json"⟩]
      = mostCommon1 ["csv", "csv", "json", "json"] := by
    simp [infer_majority_alias, h1]
  rw [h2, mostCommon1_eq_find]
  decide

/-- Concrete case-variant tally: .CSV, .Csv and .csv all count as csv. -/
theorem infer_example_case_variants :
    infer_majority_alias true [⟨true, ".CSV"⟩, ⟨true, ".Csv"⟩, ⟨true, ".csv"⟩]
      = some "csv" := by
  have h1 : dirAliases [⟨true, ".CSV"⟩, ⟨true, ".Csv"⟩, ⟨true, ".csv"⟩]
      = ["csv", "csv", "csv"] := by decide
  have h2 : infer_majority_alias true
      [⟨true, ".CSV"⟩, ⟨true, ".Csv"⟩, ⟨true, ".csv"⟩]
      = mostCommon1 ["csv", "csv", "csv"] := by
    simp [infer_majority_alias, h1]
  rw [h2, mostCommon1_eq_find]
  decide

/-- C4: majority-alias inference considers only the children that are
files; a returned token occurs among the tallied aliases, is of maximal
multiplicity, and on equal multiplicity its first occurrence in tally
order comes no later than the rival's; the inference returns a value
whenever some alias was tallied; and the 2-csv/2-json directory listed in
that order elects csv. -/
theorem claim_C4_majority_inference :
    (∀ entries : List DirEntry,
        dirAliases entries = dirAliases (entries.filter (fun e => e.isFile)))
    ∧ (∀ (entries : List DirEntry) (m : String),
        infer_majority_alias true entries = some m →
          m ∈ dirAliases entries
          ∧ (∀ x ∈ dirAliases entries,
              (dirAliases entries).count x ≤ (dirAliases entries).count m)
          ∧ (∀ k ∈ dirAliases entries,
              (dirAliases entries).count k = (dirAliases entries).count m →
              (dirAliases entries).indexOf m ≤ (dirAliases entries).indexOf k))
    ∧ (∀ entries : List DirEntry, dirAliases entries ≠ [] →
        (infer_majority_alias true entries).isSome)
    ∧ infer_majority_alias true
        [⟨true, ".csv"⟩, ⟨true, ".csv"⟩, ⟨true, ".json"⟩, ⟨true, ".json"⟩]
        = some "csv" := by
  refine ⟨dirAliases_filter_isFile, ?_, ?_, infer_example_tie⟩
  · intro entries m h
    have h' : mostCommon1 (dirAliases entries) = some m := by
      by_cases hem : (dirAliases entries).isEmpty
      · simp [infer_majority_alias, hem] at h
      · simpa [infer_majority_alias, hem] using h
    exact mostCommon1_spec _ _ h'
  · intro entries hne
    have hem : (dirAliases entries).isEmpty = false := by
      simp [List.isEmpty_iff, hne]
    have h2 : infer_majority_alias true entries
        = mostCommon1 (dirAliases entries) := by
      simp [infer_majority_alias, hem]
    rw [h2]
    exact mostCommon1_isSome _ hne

/-- Witness for C4: in the 2-csv/2-json tie the winner csv occurs no
later than json. -/
theorem claim_C4_majority_inference_witness :
    (dirAliases
        [⟨true, ".csv"⟩, ⟨true, ".csv"⟩, ⟨true, ".json"⟩, ⟨true, ".json"⟩]).indexOf "csv"
      ≤ (dirAliases
        [⟨true, ".csv"⟩, ⟨true, ".csv"⟩, ⟨true, ".json"⟩, ⟨true, ".json"⟩]).indexOf "json" :=
  (claim_C4_majority_inference.2.1
      [⟨true, ".csv"⟩, ⟨true, ".csv"⟩, ⟨true, ".json"⟩, ⟨true, ".json"⟩]
      "csv" infer_example_tie).2.2 "json" (by decide) (by decide)

/-- C10: alias extraction lowercases the suffix before lookup, so two
suffixes equal up to case are tallied identically; a file suffix is
recognized exactly when its lowercasing is one of the seven mapped
extensions; .parq and .pq map to parquet; and the three case variants of
.csv tally to the same token. -/
theorem claim_C10_suffix_lowercased :
    (∀ (t : Bool) (s₁ s₂ : String), pyLower s₁ = pyLower s₂ →
        entryAlias ⟨t, s₁⟩ = entryAlias ⟨t, s₂⟩)
    ∧ (∀ s : String, (entryAlias ⟨true, s⟩).isSome ↔
        pyLower s ∈ [".csv", ".txt", ".json", ".parquet", ".parq", ".pq", ".xlsx"])
    ∧ NAMING_EXT_MAP.lookup ".parq" = some "parquet"
    ∧ NAMING_EXT_MAP.lookup ".pq" = some "parquet"
    ∧ infer_majority_alias true [⟨true, ".CSV"⟩, ⟨true, ".Csv"⟩, ⟨true, ".csv"⟩]
        = some "csv" := by
  refine ⟨?_, ?_, rfl, rfl, infer_example_case_variants⟩
  · intro t s₁ s₂ h
    simp [entryAlias, h]
  · intro s
    have h1 : entryAlias ⟨true, s⟩ = NAMING_EXT_MAP.lookup (pyLower s) := by
      simp [entryAlias]
    rw [h1, lookup_isSome_iff_mem_keys]
    have h2 : NAMING_EXT_MAP.map Prod.fst
        = [".csv", ".txt", ".json", ".parquet", ".parq", ".pq", ".xlsx"] := by decide
    rw [h2]

/-- Witness for C10: the upper-case suffix .CSV is tallied like .csv. -/
theorem claim_C10_suffix_lowercased_witness :
    entryAlias ⟨true, ".CSV"⟩ = entryAlias ⟨true, ".csv"⟩ :=
  claim_C10_suffix_lowercased.1 true ".CSV" ".csv" (by decide)

/-! ### TXT delimiter negotiation (conversions.py) -/

/-- Delimiter selection of `export_txt_generic` (conversions.py lines
19-40): if no delimiter is supplied, the prompt answer is stripped and
lowercased and tab is chosen exactly for answer `t`, else comma.  The
returned flag records whether the prompt was issued. -/
def export_txt_generic_delimiter (kwargsDelimiter : Option String)
    (answer : String) : String × Bool :=
  match kwargsDelimiter with
  | some d => (d, false)
  | none => (if pyLower (pyStrip answer) = "t" then "\t" else ",", true)

/-- Delimiter selection duplicated inline in `excel_to_txt`
(conversions.py lines 228-237), identical logic. -/
def excel_to_txt_delimiter (kwargsDelimiter : Option String)
    (answer : String) : String × Bool :=
  match kwargsDelimiter with
  | some d => (d, false)
  | none => (if pyLower (pyStrip answer) = "t" then "\t" else ",", true)

/-! ### Claim theorems: dispatch table, maps, delimiter -/

/-- C1: the conversion dispatch table registers exactly 20 strategies, all
with source among the four formats and destination among the six tokens,
never a self-conversion pair; every registered pair dispatches to its
non-null strategy, and dispatch of any unregistered pair fails with the
unsupported-pair error. -/
theorem claim_C1_dispatch_total :
    CONVERSION_FUNCTIONS.length = 20
    ∧ (∀ p ∈ CONVERSION_FUNCTIONS, p.1.1 ≠ p.1.2)
    ∧ (∀ p ∈ CONVERSION_FUNCTIONS,
        p.1.1 ∈ ["csv", "json", "parquet", "excel"]
        ∧ p.1.2 ∈ ["csv", "json", "parquet", "excel", "tsv", "txt"])
    ∧ (∀ p ∈ CONVERSION_FUNCTIONS, dispatch p.1.1 p.1.2 = Except.ok p.2)
    ∧ (∀ a b : String, (a, b) ∉ CONVERSION_FUNCTIONS.map Prod.fst →
        dispatch a b = Except.error "Unsupported conversion pair") := by
  have hlk : ∀ p ∈ CONVERSION_FUNCTIONS,
      CONVERSION_FUNCTIONS.lookup p.1 = some p.2 := by decide
  refine ⟨rfl, by decide, by decide, ?_, ?_⟩
  · intro p hp
    have h1 : CONVERSION_FUNCTIONS.lookup (p.1.1, p.1.2) = some p.2 := by
      rw [Prod.mk.eta]
      exact hlk p hp
    simp [dispatch, h1]
  · intro a b h
    unfold dispatch
    rw [lookup_eq_none_of_not_mem_keys _ _ h]

/-- Witness for C1: the self-conversion pair (excel, excel) is not
registered and dispatch fails on it with the unsupported-pair error. -/
theorem claim_C1_dispatch_total_witness :
    dispatch "excel" "excel" = Except.error "Unsupported conversion pair" :=
  claim_C1_dispatch_total.2.2.2.2 "excel" "excel" (by decide)

/-- C9: every key of the naming extension map is also a key of the
processing extension map, and the two maps treat .txt as specified:
processing sends .txt to csv while naming sends .txt to txt. -/
theorem claim_C9_map_domains :
    (∀ k : String,
      (NAMING_EXT_MAP.lookup k).isSome → (ALLOWED_EXT_MAP.lookup k).isSome)
    ∧ ALLOWED_EXT_MAP.lookup ".txt" = some "csv"
    ∧ NAMING_EXT_MAP.lookup ".txt" = some "txt" := by
  refine ⟨?_, rfl, rfl⟩
  intro k h
  rw [lookup_isSome_iff_mem_keys] at h
  rw [lookup_isSome_iff_mem_keys]
  have hk : NAMING_EXT_MAP.map Prod.fst = ALLOWED_EXT_MAP.map Prod.fst := by decide
  rw [hk] at h
  exact h

/-- Witness for C9: the naming key .parq is a processing key as well. -/
theorem claim_C9_map_domains_witness :
    (ALLOWED_EXT_MAP.lookup ".parq").isSome :=
  claim_C9_map_domains.1 ".parq" (by decide)

/-- C6: every strategy that reads a spreadsheet reads it with the
all-varchar (all-text) mode, every excel-source strategy reads all-varchar
for all five destinations, and the secondary type-inference stage runs
exactly for the excel-source strategies whose destination is parquet or
json. -/
theorem claim_C6_excel_all_varchar :
    (∀ p ∈ CONVERSION_FUNCTIONS, ∀ b : Bool,
        p.2.read = ReadOp.readXlsx b → b = true)
    ∧ (∀ p ∈ CONVERSION_FUNCTIONS,
        p.1.1 = "excel" → p.2.read = ReadOp.readXlsx true)
    ∧ (∀ p ∈ CONVERSION_FUNCTIONS,
        p.2.inferTypes = true ↔
          (p.1.1 = "excel" ∧ (p.1.2 = "parquet" ∨ p.1.2 = "json"))) := by
  refine ⟨by decide, by decide, by decide⟩

/-- Witness for C6: the excel-to-csv strategy reads all-varchar. -/
theorem claim_C6_excel_all_varchar_witness :
    excel_to_csv.read = ReadOp.readXlsx true :=
  claim_C6_excel_all_varchar.2.1 (("excel", "csv"), excel_to_csv) (by decide) rfl

/-- C8: with a caller-supplied delimiter no prompt occurs and that
delimiter is used; otherwise a prompt occurs and the chosen delimiter is
tab exactly when the stripped, lowercased answer is "t", comma for every
other answer; `excel_to_txt` duplicates the same behaviour. -/
theorem claim_C8_txt_delimiter :
    (∀ (d answer : String),
        export_txt_generic_delimiter (some d) answer = (d, false)
        ∧ excel_to_txt_delimiter (some d) answer = (d, false))
    ∧ (∀ answer : String,
        (export_txt_generic_delimiter none answer).2 = true
        ∧ (excel_to_txt_delimiter none answer).2 = true
        ∧ ((export_txt_generic_delimiter none answer).1 = "\t" ↔
            pyLower (pyStrip answer) = "t")
        ∧ (pyLower (pyStrip answer) ≠ "t" →
            (export_txt_generic_delimiter none answer).1 = ",")
        ∧ export_txt_generic_delimiter none answer
            = excel_to_txt_delimiter none answer) := by
  constructor
  · intro d answer
    exact ⟨rfl, rfl⟩
  · intro answer
    by_cases h : pyLower (pyStrip answer) = "t"
    · simp [export_txt_generic_delimiter, excel_to_txt_delimiter, h]
    · simp [export_txt_generic_delimiter, excel_to_txt_delimiter, h]

/-- Witness for C8: the empty answer (and hence an aborted prompt) falls
back to comma. -/
theorem claim_C8_txt_delimiter_witness :
    (export_txt_generic_delimiter none "").1 = "," :=
  (claim_C8_txt_delimiter.2 "").2.2.2.1 (by decide)

/-! ### Case-preserving alias substitution (path_manager.py)

`_replace_alias_in_string` compiles `re.escape(old_alias)` with
`re.IGNORECASE` and calls `pattern.subn(replacer, text)`: a left-to-right
scan replacing each non-overlapping, leftmost, case-insensitive literal
occurrence.  The scan is embedded with explicit fuel (one unit per
consumed character) so that it evaluates inside the kernel; the top-level
wrapper supplies `text.length`, which the lemmas show is always enough. -/

/-- Case-insensitive character equality (`re.IGNORECASE`, ASCII model). -/
def charCIEq (a b : Char) : Bool := a.toLower == b.toLower

/-- Whether the pattern matches at the head of the text,
case-insensitively. -/
def ciMatchesAt : List Char → List Char → Bool
  | [], _ => true
  | _ :: _, [] => false
  | p :: ps, t :: ts => charCIEq p t && ciMatchesAt ps ts

/-- Python `str.isupper`: at least one cased character and no cased
character lowercase (ASCII: cased = letter). -/
def pyIsUpperL (l : List Char) : Bool :=
  l.any Char.isAlpha && l.all (fun c => !c.isAlpha || c.isUpper)

/-- Python `str.islower`. -/
def pyIsLowerL (l : List Char) : Bool :=
  l.any Char.isAlpha && l.all (fun c => !c.isAlpha || c.isLower)

/-- Python `str.capitalize()`: first character uppercased, the rest
lowercased. -/
def pyCapitalizeL : List Char → List Char
  | [] => []
  | c :: cs => c.toUpper :: cs.map Char.toLower

/-- The `replacer` closure (path_manager.py lines 70-79).  The empty-match
arm returns `new` but is unreachable for a nonempty alias (Python would
raise `IndexError` there). -/
def replacer (orig new : List Char) : List Char :=
  if pyIsUpperL orig then new.map Char.toUpper
  else if pyIsLowerL orig then new.map Char.toLower
  else
    match orig with
    | [] => new
    | o :: os => if o.isUpper && pyIsLowerL os then pyCapitalizeL new else new

/-- Fuelled scan of `pattern.subn(replacer, text)`: on a match consume
`old.length` characters and count one replacement, otherwise emit one
character and move on.  The `old.isEmpty` arm keeps the scan total;
Python's `re` treats an empty pattern differently and every claim below
assumes a nonempty alias. -/
def subnGo (old new : List Char) : Nat → List Char → List Char × Nat
  | _, [] => ([], 0)
  | 0, t :: ts => (t :: ts, 0)
  | fuel + 1, t :: ts =>
    if old.isEmpty then (t :: ts, 0)
    else if ciMatchesAt old (t :: ts) then
      let r := subnGo old new fuel (ts.drop (old.length - 1))
      (replacer (t :: ts.take (old.length - 1)) new ++ r.1, r.2 + 1)
    else
      let r := subnGo old new fuel ts
      (t :: r.1, r.2)

/-- `pattern.subn(replacer, text)` (path_manager.py line 81). -/
def subnCI (old new text : List Char) : List Char × Nat :=
  subnGo old new text.length text

/-- `BasePathManager._replace_alias_in_string` (path_manager.py lines
62-84): substitute, and if no occurrence was found append the new alias
after a space. -/
def replace_alias_in_string (text old new : String) : String :=
  let r := subnCI old.data new.data text.data
  if r.2 = 0 then text ++ " " ++ new else ⟨r.1⟩

/-- `DirectoryPathManager._generate_output_name` (path_manager.py lines
144-154); Python truthiness sends both a `None` and an empty alias to the
append branch. -/
def generate_output_name (inputName : String) (inputAlias : Option String)
    (outputExt : String) : String :=
  match inputAlias with
  | some a =>
      if a.isEmpty then inputName ++ " " ++ outputExt
      else replace_alias_in_string inputName a outputExt
  | none => inputName ++ " " ++ outputExt

/-- The directory naming pipeline of `DirectoryPathManager.__init__`
(path_manager.py lines 117-121): infer the majority alias, then generate
the output name from it. -/
def directory_output_name (isDir : Bool) (entries : List DirEntry)
    (inputName outputExt : String) : String :=
  generate_output_name inputName (infer_majority_alias isDir entries)
    outputExt

/-! ### Lemmas about the substitution scan -/

/-- A head match only inspects the pattern's length of text. -/
theorem ciMatchesAt_append (old : List Char) :
    ∀ (m more : List Char), ciMatchesAt old m = true →
      ciMatchesAt old (m ++ more) = true := by
  induction old with
  | nil => intro m more _; rfl
  | cons p ps ih =>
    intro m more h
    cases m with
    | nil => simp [ciMatchesAt] at h
    | cons t ts =>
      simp only [ciMatchesAt, Bool.and_eq_true] at h
      simp only [List.cons_append, ciMatchesAt, Bool.and_eq_true]
      exact ⟨h.1, ih ts more h.2⟩

/-- The scan result does not depend on the fuel, provided there is enough
of it. -/
theorem subnGo_fuel_stable (old new : List Char) :
    ∀ (f : Nat) (text : List Char), text.length ≤ f →
      ∀ g : Nat, f ≤ g → subnGo old new g text = subnGo old new f text := by
  intro f
  induction f with
  | zero =>
    intro text hlen g _
    have : text = [] := List.eq_nil_of_length_eq_zero (by omega)
    subst this
    cases g with
    | zero => rfl
    | succ g => rfl
  | succ f ih =>
    intro text hlen g hg
    cases text with
    | nil =>
      cases g with
      | zero => rfl
      | succ g => rfl
    | cons t ts =>
      cases g with
      | zero => omega
      | succ g =>
        have hg' : f ≤ g := by omega
        have hts : ts.length ≤ f := by
          simp only [List.length_cons] at hlen
          omega
        have hdrop : (ts.drop (old.length - 1)).length ≤ f := by
          rw [List.length_drop]
          omega
        rw [subnGo, subnGo, ih _ hdrop g hg', ih _ hts g hg']

/-- If the pattern matches nowhere in the text, the scan returns the text
unchanged with a zero count. -/
theorem subnGo_no_match (old new : List Char) :
    ∀ (f : Nat) (text : List Char), text.length ≤ f →
      (∀ i : Nat, ciMatchesAt old (text.drop i) = false) →
      subnGo old new f text = (text, 0) := by
  intro f
  induction f with
  | zero =>
    intro text hlen _
    have : text = [] := List.eq_nil_of_length_eq_zero (by omega)
    subst this
    rfl
  | succ f ih =>
    intro text hlen hno
    cases text with
    | nil => rfl
    | cons t ts =>
      have hhead : ciMatchesAt old (t :: ts) = false := by
        have := hno 0
        simpa using this
      rw [subnGo]
      by_cases hemp : old.isEmpty
      · simp [hemp]
      · simp only [hemp, if_false, hhead, Bool.false_eq_true, if_false]
        have hts : ts.length ≤ f := by
          simp only [List.length_cons] at hlen
          omega
        have hno' : ∀ i : Nat, ciMatchesAt old (ts.drop i) = false := by
          intro i
          have := hno (i + 1)
          rwa [List.drop_succ_cons] at this
        rw [ih ts hts hno']

/-- A nonempty pattern never matches at the end of the text. -/
theorem ciMatchesAt_nil_eq_false (old : List Char) (hold : old ≠ []) :
    ciMatchesAt old [] = false := by
  cases old with
  | nil => exact absurd rfl hold
  | cons p ps => rfl

/-- Absence of a match at every position inside the text extends to every
position whatsoever. -/
theorem no_occur_of_bounded (old text : List Char) (hold : old ≠ [])
    (h : ∀ i : Nat, i < text.length → ciMatchesAt old (text.drop i) = false) :
    ∀ i : Nat, ciMatchesAt old (text.drop i) = false := by
  intro i
  by_cases hi : i < text.length
  · exact h i hi
  · rw [List.drop_eq_nil_of_le (by omega)]
    exact ciMatchesAt_nil_eq_false old hold

/-- The scan replaces the leftmost case-insensitive occurrence through
`replacer` and continues on the remainder of the text. -/
theorem subnGo_leftmost (old new : List Char) (hold : old ≠ []) :
    ∀ (f : Nat) (pre m rest : List Char),
      (pre ++ (m ++ rest)).length ≤ f →
      ciMatchesAt old m = true → m.length = old.length →
      (∀ i : Nat, i < pre.length →
        ciMatchesAt old ((pre ++ (m ++ rest)).drop i) = false) →
      subnGo old new f (pre ++ (m ++ rest))
        = (pre ++ (replacer m new ++ (subnGo old new rest.length rest).1),
           (subnGo old new rest.length rest).2 + 1) := by
  intro f
  induction f with
  | zero =>
    intro pre m rest hlen hm hlen2 hno
    exfalso
    have hmne : m ≠ [] := by
      intro hme
      subst hme
      simp only [List.length_nil] at hlen2
      exact hold (List.eq_nil_of_length_eq_zero hlen2.symm)
    have h1 : m.length = 0 := by
      simp only [List.length_append] at hlen
      omega
    exact hmne (List.eq_nil_of_length_eq_zero h1)
  | succ f ih =>
    intro pre m rest hlen hm hlen2 hno
    have hemp : old.isEmpty = false := by
      cases old with
      | nil => exact absurd rfl hold
      | cons a as => rfl
    cases pre with
    | nil =>
      cases m with
      | nil =>
        exfalso
        simp only [List.length_nil] at hlen2
        exact hold (List.eq_nil_of_length_eq_zero hlen2.symm)
      | cons t ts0 =>
        have hmatch : ciMatchesAt old (t :: (ts0 ++ rest)) = true := by
          have := ciMatchesAt_append old (t :: ts0) rest hm
          simpa using this
        have hlen1 : old.length - 1 = ts0.length := by
          simp only [List.length_cons] at hlen2
          omega
        have hrl : rest.length ≤ f := by
          simp only [List.nil_append, List.length_append, List.length_cons]
            at hlen
          omega
        simp only [List.nil_append, List.cons_append]
        rw [subnGo]
        simp only [hemp, Bool.false_eq_true, if_false, hmatch, if_true]
        rw [hlen1, List.take_left, List.drop_left,
          subnGo_fuel_stable old new rest.length rest (le_refl _) f hrl]
    | cons c pre' =>
      have hnom : ciMatchesAt old (c :: (pre' ++ (m ++ rest))) = false := by
        have := hno 0 (by simp)
        simpa using this
      have hlen' : (pre' ++ (m ++ rest)).length ≤ f := by
        simp only [List.cons_append, List.length_cons] at hlen
        omega
      have hno' : ∀ i : Nat, i < pre'.length →
          ciMatchesAt old ((pre' ++ (m ++ rest)).drop i) = false := by
        intro i hi
        have := hno (i + 1) (by simp only [List.length_cons]; omega)
        simp only [List.cons_append, List.drop_succ_cons] at this
        exact this
      have hrec := ih pre' m rest hlen' hm hlen2 hno'
      simp only [List.cons_append]
      rw [subnGo]
      simp only [hemp, Bool.false_eq_true, if_false, hnom, if_false]
      rw [hrec]

/-! ### Batch loop and per-file error isolation (DuckConvert.py) -/

/-- What the batch loop logs for one file. -/
inductive FileOutcome where
  | skipped : String → FileOutcome
  | converted : String → FileOutcome
  | errorLogged : String → String → FileOutcome
deriving DecidableEq, Repr

/-- `process_file` (DuckConvert.py lines 77-92): the conversion attempt —
modelled as an `Except` value carrying either the produced output name or
the raised exception's message — is wrapped in try/except; an exception is
caught, logged with the file's name and never re-raised. -/
def process_file_outcome (fileName : String)
    (conversion : Except String String) : FileOutcome :=
  match conversion with
  | Except.ok outName => FileOutcome.converted outName
  | Except.error e => FileOutcome.errorLogged fileName e

/-- One iteration of the `convert` batch loop (DuckConvert.py lines
118-142): a file whose extension is not recognized
(`get_file_type_by_extension` returned `None`) is skipped with a log
message and the loop continues; otherwise the file goes through
`process_file`. -/
def convert_step (f : String × Option String × Except String String) :
    FileOutcome :=
  match f.2.1 with
  | none => FileOutcome.skipped f.1
  | some _ => process_file_outcome f.1 f.2.2

/-- The batch loop over all discovered files. -/
def convert_batch
    (files : List (String × Option String × Except String String)) :
    List FileOutcome :=
  files.map convert_step

/-- C7: the batch loop yields exactly one logged outcome per discovered
file, in order; a failing conversion is logged with the file's name and
never propagates (it is a value, not an exception, so the files on both
sides of a failure are still processed); an unrecognized extension is
skipped while the batch continues. -/
theorem claim_C7_batch_isolation :
    (∀ files : List (String × Option String × Except String String),
        (convert_batch files).length = files.length)
    ∧ (∀ (files : List (String × Option String × Except String String))
        (i : Nat), (convert_batch files)[i]? = (files[i]?).map convert_step)
    ∧ (∀ (files1 files2 : List (String × Option String × Except String String))
        (f : String × Option String × Except String String),
        convert_batch (files1 ++ f :: files2)
          = convert_batch files1 ++ convert_step f :: convert_batch files2)
    ∧ (∀ name msg : String, ∀ d : Option String,
        d.isSome → convert_step (name, d, Except.error msg)
          = FileOutcome.errorLogged name msg)
    ∧ (∀ (name : String) (conv : Except String String),
        convert_step (name, none, conv) = FileOutcome.skipped name) := by
  refine ⟨?_, ?_, ?_, ?_, ?_⟩
  · intro files
    exact List.length_map _ _
  · intro files i
    exact List.getElem?_map _ _ _
  · intro files1 files2 f
    simp [convert_batch]
  · intro name msg d hd
    rcases Option.isSome_iff_exists.mp hd with ⟨t, ht⟩
    subst ht
    rfl
  · intro name conv
    rfl

/-- Witness for C7: a file with a recognized type whose conversion raised
is logged as a per-file error. -/
theorem claim_C7_batch_isolation_witness :
    convert_step ("bad.csv", some "csv", Except.error "engine failure")
      = FileOutcome.errorLogged "bad.csv" "engine failure" :=
  claim_C7_batch_isolation.2.2.2.1 "bad.csv" "engine failure" (some "csv") rfl

/-! ### Decimal numerals

Python renders the collision counter with `str(counter)`; the model uses
`Nat.repr`.  Distinct counters must give distinct path names, so we prove
`Nat.repr` injective via a decimal round trip. -/

/-- Numeric value of a decimal digit character. -/
def digitVal (c : Char) : Nat := c.toNat - 48

/-- Value of a most-significant-first decimal digit string. -/
def digitsVal (l : List Char) : Nat :=
  l.foldl (fun a c => a * 10 + digitVal c) 0

/-- Reference form of the decimal digits of a number. -/
def decDigits (n : Nat) : List Char :=
  if n < 10 then [Nat.digitChar n]
  else decDigits (n / 10) ++ [Nat.digitChar (n % 10)]
termination_by n
decreasing_by
  exact Nat.div_lt_self (by omega) (by omega)

/-- `digitChar` is exact on single digits. -/
theorem digitVal_digitChar (n : Nat) (h : n < 10) :
    digitVal (Nat.digitChar n) = n := by
  interval_cases n <;> rfl

/-- The fuelled core of `Nat.repr` computes the reference digits. -/
theorem toDigitsCore_eq_decDigits :
    ∀ (fuel n : Nat) (ds : List Char), n < fuel →
      Nat.toDigitsCore 10 fuel n ds = decDigits n ++ ds := by
  intro fuel
  induction fuel with
  | zero => intro n ds h; omega
  | succ f ih =>
    intro n ds h
    by_cases h0 : n / 10 = 0
    · have hn : n < 10 := (Nat.div_eq_zero_iff (by omega)).mp h0
      have hm : n % 10 = n := Nat.mod_eq_of_lt hn
      rw [Nat.toDigitsCore]
      simp only [h0, reduceIte]
      rw [hm, decDigits]
      simp [hn]
    · have hn : ¬ n < 10 := by
        intro hlt
        exact h0 ((Nat.div_eq_zero_iff (by omega)).mpr hlt)
      have hdiv : n / 10 < f := by
        have h1 : n / 10 < n := Nat.div_lt_self (by omega) (by omega)
        omega
      rw [Nat.toDigitsCore]
      simp only [h0, if_false, reduceIte]
      rw [ih _ _ hdiv]
      conv_rhs => rw [decDigits]
      simp [hn, List.append_assoc]

/-- Decimal round trip on the reference digits. -/
theorem digitsVal_decDigits (n : Nat) : digitsVal (decDigits n) = n := by
  by_cases h : n < 10
  · rw [decDigits]
    simp only [h, if_true]
    simp [digitsVal, digitVal_digitChar n h]
  · have ih := digitsVal_decDigits (n / 10)
    rw [decDigits]
    simp only [h, if_false]
    rw [digitsVal, List.foldl_append]
    have h2 : digitVal (Nat.digitChar (n % 10)) = n % 10 :=
      digitVal_digitChar _ (Nat.mod_lt _ (by omega))
    simp only [List.foldl_cons, List.foldl_nil]
    rw [← digitsVal, ih, h2]
    omega
termination_by n
decreasing_by
  exact Nat.div_lt_self (by omega) (by omega)

/-- `Nat.repr` (Python `str` on the counter) is injective. -/
theorem repr_injective (m n : Nat) (h : Nat.repr m = Nat.repr n) : m = n := by
  have hd : Nat.toDigits 10 m = Nat.toDigits 10 n := congrArg String.data h
  rw [Nat.toDigits, Nat.toDigits,
    toDigitsCore_eq_decDigits (m + 1) m [] (by omega),
    toDigitsCore_eq_decDigits (n + 1) n [] (by omega),
    List.append_nil, List.append_nil] at hd
  have := congrArg digitsVal hd
  rwa [digitsVal_decDigits, digitsVal_decDigits] at this

/-! ### Output-path resolution and collision avoidance (DuckConvert.py) -/

/-- A `pathlib.Path` modelled structurally: parent directory, stem and
suffix; the path's file name is `stem ++ suffix`. -/
structure FsPath where
  parent : String
  stem : String
  suffix : String
deriving DecidableEq, Repr

/-- The initial output candidate of `process_file` (DuckConvert.py lines
60-64): with an output directory, `output_dir / (file.stem + EXTENSIONS[out_type])`,
otherwise `file.with_suffix(EXTENSIONS[out_type])`; either way the stem is
kept and the suffix becomes the destination extension. -/
def initial_output_file (file : FsPath) (outputDir : Option String)
    (ext : String) : FsPath :=
  match outputDir with
  | some d => ⟨d, file.stem, ext⟩
  | none => ⟨file.parent, file.stem, ext⟩

/-- The counter-suffixed candidate
`output_file.parent / f"{base}_{counter}{ext}"` (DuckConvert.py lines
71-74). -/
def collision_candidate (out : FsPath) (counter : Nat) : FsPath :=
  ⟨out.parent, out.stem ++ "_" ++ Nat.repr counter, out.suffix⟩

/-- Distinct counters give distinct candidate paths. -/
theorem collision_candidate_injective (out : FsPath) (a b : Nat)
    (h : collision_candidate out a = collision_candidate out b) : a = b := by
  have hs : (out.stem ++ "_") ++ Nat.repr a = (out.stem ++ "_") ++ Nat.repr b :=
    congrArg FsPath.stem h
  have hd := congrArg String.data hs
  simp only [String.data_append] at hd
  exact repr_injective a b (String.ext (List.append_cancel_left hd))

/-- Some counter always yields a path free of the finite filesystem. -/
theorem exists_free_candidate (fs : List FsPath) (out : FsPath) :
    ∃ n : Nat, collision_candidate out (n + 1) ∉ fs := by
  by_contra hall
  push_neg at hall
  have hinj : Function.Injective (fun n : Nat => collision_candidate out (n + 1)) := by
    intro a b hab
    have := collision_candidate_injective out (a + 1) (b + 1) hab
    omega
  have hsub : (Finset.range (fs.length + 1)).image
      (fun n => collision_candidate out (n + 1)) ⊆ fs.toFinset := by
    intro x hx
    rcases Finset.mem_image.mp hx with ⟨n, _, rfl⟩
    exact List.mem_toFinset.mpr (hall n)
  have hcard := Finset.card_le_card hsub
  rw [Finset.card_image_of_injective _ hinj, Finset.card_range] at hcard
  have := List.toFinset_card_le fs
  omega

/-- The collision-avoidance loop of `process_file` (DuckConvert.py lines
66-75): if the candidate exists, try `name_1.ext`, `name_2.ext`, …
until a free path is found; the loop returns the first free counter. -/
def process_file_output (fs : List FsPath) (out : FsPath) : FsPath :=
  if out ∈ fs then
    collision_candidate out (Nat.find (exists_free_candidate fs out) + 1)
  else out

/-- C2: the initial candidate keeps the stem and takes the destination
extension; an unused candidate is returned unchanged; the returned path
never names an existing file; and when the candidate exists the result is
`name_N.ext` for the least N ≥ 1 whose path is free. -/
theorem claim_C2_collision_avoidance :
    (∀ (file : FsPath) (dir : Option String) (ext : String),
        (initial_output_file file dir ext).stem = file.stem
        ∧ (initial_output_file file dir ext).suffix = ext)
    ∧ (∀ (fs : List FsPath) (out : FsPath), out ∉ fs →
        process_file_output fs out = out)
    ∧ (∀ (fs : List FsPath) (out : FsPath), process_file_output fs out ∉ fs)
    ∧ (∀ (fs : List FsPath) (out : FsPath), out ∈ fs →
        ∃ N : Nat, 1 ≤ N
          ∧ process_file_output fs out = collision_candidate out N
          ∧ collision_candidate out N ∉ fs
          ∧ ∀ m : Nat, 1 ≤ m → m < N → collision_candidate out m ∈ fs) := by
  refine ⟨?_, ?_, ?_, ?_⟩
  · intro file dir ext
    cases dir with
    | none => exact ⟨rfl, rfl⟩
    | some d => exact ⟨rfl, rfl⟩
  · intro fs out h
    simp only [process_file_output, if_neg h]
  · intro fs out
    by_cases h : out ∈ fs
    · simp only [process_file_output, if_pos h]
      exact Nat.find_spec (exists_free_candidate fs out)
    · simp only [process_file_output, if_neg h]
      exact h
  · intro fs out h
    refine ⟨Nat.find (exists_free_candidate fs out) + 1, by omega, ?_,
      Nat.find_spec (exists_free_candidate fs out), ?_⟩
    · simp only [process_file_output, if_pos h]
    · intro m h1 h2
      have hm : m - 1 < Nat.find (exists_free_candidate fs out) := by omega
      have hnot := Nat.find_min (exists_free_candidate fs out) hm
      have hmm : m - 1 + 1 = m := by omega
      rw [hmm] at hnot
      exact not_not.mp hnot

/-- Witness for C2: with `report.json` and `report_1.json` both existing,
the resolver steps past them to a fresh suffix.  The first free counter is
2 and the returned path exists nowhere in the filesystem. -/
theorem claim_C2_collision_avoidance_witness :
    ∃ N : Nat, 1 ≤ N
      ∧ process_file_output
          [⟨"d", "report", ".json"⟩, ⟨"d", "report_1", ".json"⟩]
          ⟨"d", "report", ".json"⟩
        = collision_candidate ⟨"d", "report", ".json"⟩ N
      ∧ collision_candidate ⟨"d", "report", ".json"⟩ N
          ∉ [(⟨"d", "report", ".json"⟩ : FsPath), ⟨"d", "report_1", ".json"⟩]
      ∧ ∀ m : Nat, 1 ≤ m → m < N →
          collision_candidate ⟨"d", "report", ".json"⟩ m
            ∈ [(⟨"d", "report", ".json"⟩ : FsPath), ⟨"d", "report_1", ".json"⟩] :=
  claim_C2_collision_avoidance.2.2.2
    [⟨"d", "report", ".json"⟩, ⟨"d", "report_1", ".json"⟩]
    ⟨"d", "report", ".json"⟩ (by decide)

/-- C3: substitution matches the search alias case-insensitively — the
leftmost occurrence, any case variant of the alias, is rewritten through
`replacer` and the scan continues on the remainder — and `replacer` copies
the matched substring's case pattern onto the destination alias:
all-upper gives it uppercased, all-lower lowercased, capitalized-first
capitalized, any other pattern verbatim; the three specified examples
hold. -/
theorem claim_C3_case_preserving_substitution :
    (∀ (pre m rest old new : List Char), old ≠ [] →
        ciMatchesAt old m = true → m.length = old.length →
        (∀ i : Nat, i < pre.length →
          ciMatchesAt old ((pre ++ (m ++ rest)).drop i) = false) →
        subnCI old new (pre ++ (m ++ rest))
          = (pre ++ (replacer m new ++ (subnCI old new rest).1),
             (subnCI old new rest).2 + 1))
    ∧ (∀ m new : List Char, pyIsUpperL m = true →
        replacer m new = new.map Char.toUpper)
    ∧ (∀ m new : List Char, pyIsUpperL m = false → pyIsLowerL m = true →
        replacer m new = new.map Char.toLower)
    ∧ (∀ (o : Char) (os new : List Char),
        pyIsUpperL (o :: os) = false → pyIsLowerL (o :: os) = false →
        o.isUpper = true → pyIsLowerL os = true →
        replacer (o :: os) new = pyCapitalizeL new)
    ∧ (∀ (o : Char) (os new : List Char),
        pyIsUpperL (o :: os) = false → pyIsLowerL (o :: os) = false →
        (o.isUpper && pyIsLowerL os) = false →
        replacer (o :: os) new = new)
    ∧ replace_alias_in_string "SALES_CSV_2023" "csv" "json"
        = "SALES_JSON_2023"
    ∧ replace_alias_in_string "Sales_Csv_Report" "csv" "json"
        = "Sales_Json_Report"
    ∧ replace_alias_in_string "sales_csv_report" "csv" "json"
        = "sales_json_report" := by
  refine ⟨?_, ?_, ?_, ?_, ?_, by decide, by decide, by decide⟩
  · intro pre m rest old new hold hm hl hno
    exact subnGo_leftmost old new hold (pre ++ (m ++ rest)).length
      pre m rest (le_refl _) hm hl hno
  · intro m new h
    simp [replacer, h]
  · intro m new h1 h2
    simp [replacer, h1, h2]
  · intro o os new h1 h2 h3 h4
    simp [replacer, h1, h2, h3, h4]
  · intro o os new h1 h2 h3
    simp [replacer, h1, h2, h3]

/-- Witness for C3: in SALES_CSV_2023 the all-upper match CSV becomes
JSON and the scan continues on _2023. -/
theorem claim_C3_case_preserving_substitution_witness :
    subnCI "csv".data "json".data
        ("SALES_".data ++ ("CSV".data ++ "_2023".data))
      = ("SALES_".data ++ (replacer "CSV".data "json".data
            ++ (subnCI "csv".data "json".data "_2023".data).1),
         (subnCI "csv".data "json".data "_2023".data).2 + 1) :=
  claim_C3_case_preserving_substitution.1 "SALES_".data "CSV".data
    "_2023".data "csv".data "json".data (by decide) (by decide) (by decide)
    (by decide)

/-- C5: directory output naming never fails — with no inferred alias, or
with an alias that occurs nowhere in the name case-insensitively, the
output name is the input name, a space, and the destination alias; the
MyData directory with no recognized child extension yields
"MyData parquet". -/
theorem claim_C5_append_fallback :
    (∀ name ext : String,
        generate_output_name name none ext = name ++ " " ++ ext)
    ∧ (∀ name a ext : String,
        (∀ i : Nat, ciMatchesAt a.data (name.data.drop i) = false) →
        generate_output_name name (some a) ext = name ++ " " ++ ext)
    ∧ directory_output_name true [⟨true, ".docx"⟩] "MyData" "parquet"
        = "MyData parquet" := by
  refine ⟨?_, ?_, by decide⟩
  · intro name ext
    rfl
  · intro name a ext hno
    by_cases ha : a.isEmpty
    · simp [generate_output_name, ha]
    · have h0 : subnGo a.data ext.data name.length name.data
          = (name.data, 0) :=
        subnGo_no_match a.data ext.data name.length name.data
          (le_refl _) hno
      simp [generate_output_name, ha, replace_alias_in_string, subnCI, h0]

/-- Witness for C5: the alias csv occurs nowhere in MyData, so the
destination alias is appended after a space. -/
theorem claim_C5_append_fallback_witness :
    generate_output_name "MyData" (some "csv") "parquet"
      = "MyData" ++ " " ++ "parquet" :=
  claim_C5_append_fallback.2.1 "MyData" "csv" "parquet"
    (no_occur_of_bounded "csv".data "MyData".data (by decide) (by decide))

end DuckConvert
